import Mathlib

/-!
Shallow embedding of `netrd/dynamics/SIS.py` (`SISModel.simulate`) and proofs
about it.

Modelling conventions:
* Node labels are the integers `0 .. N-1`; `index_to_node` in the source is the
  identity bijection for such graphs, so the `IndexMap` is the identity.
* Python floats are modelled as rationals (`ℚ`); the uniform draws
  `np.random.random()` and the permutations drawn by `np.random.permutation`
  are supplied up front as a `RandSource` record of outcomes, and every theorem
  quantifies over the outcomes.
* Node attributes (`'infected'` / `'next_infected'`) live in a string-keyed
  attribute map on the graph value, mirroring `nx.set_node_attributes` /
  `H.nodes[i][...]` access.
* The numpy failures reachable from `simulate` are modelled as `Except`
  errors at the point where the corresponding numpy operation is executed:
  `np.repeat` with a negative repeat count raises `ValueError` (when
  `num_seeds < 0` or `num_seeds > N`), and `TS[:, 0] = seeds` raises
  `IndexError` when `L = 0` (a zero-column matrix has no column 0).
* `beta = 1 / avg_k` with `avg_k = 0` yields `inf` in numpy (no exception);
  here rational division gives `1 / 0 = 0`.  The two disagree only on the
  value of `beta`, and `beta` is only ever compared against a draw inside a
  neighbor loop, which is empty for every node when the average degree is 0,
  so the difference is unobservable.
-/

/-- Runtime errors that the Python code can raise inside `simulate`. -/
inductive SimError where
  /-- `ValueError`, raised by `np.repeat` on a negative repeat count. -/
  | valueError : SimError
  /-- `IndexError`, raised by `TS[:, 0] = seeds` when `TS` has 0 columns. -/
  | indexError : SimError
deriving DecidableEq, Repr

/-- A networkx graph with nodes `0 .. N-1`: adjacency lists plus a
string-keyed node-attribute map (`g.attrs name i` is node `i`'s value for
attribute `name`, if set). -/
structure NXGraph where
  N : ℕ
  adj : ℕ → List ℕ
  attrs : String → ℕ → Option ℤ

/-- `nx.set_node_attributes(H, {node: value}) `-style single-node write:
`H.nodes[i][name] = v`. -/
def NXGraph.setAttrNode (g : NXGraph) (name : String) (i : ℕ) (v : ℤ) : NXGraph :=
  { g with attrs := fun n j => if n = name ∧ j = i then some v else g.attrs n j }

/-- `nx.set_node_attributes(H, dict, name)`: write `m j` into attribute
`name` of every node `j` of the graph. -/
def NXGraph.setAttrMap (g : NXGraph) (name : String) (m : ℕ → ℤ) : NXGraph :=
  { g with attrs := fun n j => if n = name ∧ j < g.N then some (m j) else g.attrs n j }

/-- `nx.set_node_attributes(H, v, name)` with a scalar `v`: write `v` into
attribute `name` of every node of the graph. -/
def NXGraph.setAttrAll (g : NXGraph) (name : String) (v : ℤ) : NXGraph :=
  { g with attrs := fun n j => if n = name ∧ j < g.N then some v else g.attrs n j }

/-- Attribute read `H.nodes[i][name]`; every read performed by `simulate`
happens after the attribute was initialised for all nodes, so a default of
`0` for a missing key is unobservable. -/
def NXGraph.getAttrD (g : NXGraph) (name : String) (i : ℕ) : ℤ :=
  (g.attrs name i).getD 0

/-- Degree list `list(dict(H.degree()).values())` (node order `0..N-1`). -/
def NXGraph.degreeList (g : NXGraph) : List ℕ :=
  (List.range g.N).map (fun i => (g.adj i).length)

/-- `np.mean` of the degree list: sum of degrees divided by `N`. -/
def NXGraph.avgDeg (g : NXGraph) : ℚ :=
  ((g.degreeList.sum : ℕ) : ℚ) / (g.N : ℚ)

/-- A rectangular numpy array of rationals: a shape plus an entry function
(entries outside the shape are irrelevant and never observed). -/
structure Mat where
  rows : ℕ
  cols : ℕ
  entry : ℕ → ℕ → ℚ

/-- `np.zeros((r, c))`. -/
def Mat.zeros (r c : ℕ) : Mat :=
  ⟨r, c, fun _ _ => 0⟩

/-- Column assignment `M[:, t] = v`. -/
def Mat.setCol (M : Mat) (t : ℕ) (v : ℕ → ℚ) : Mat :=
  { M with entry := fun i c => if c = t then v i else M.entry i c }

/-- `M[:, t].sum()`. -/
def Mat.colSum (M : Mat) (t : ℕ) : ℚ :=
  ∑ i ∈ Finset.range M.rows, M.entry i t

/-- `np.hstack([A, B])`. -/
def Mat.hstack (A B : Mat) : Mat :=
  ⟨A.rows, A.cols + B.cols, fun i c => if c < A.cols then A.entry i c else B.entry i (c - A.cols)⟩

/-- All random outcomes consumed by one call of `simulate`:
the permutation drawn for the seed vector, the node visitation order drawn at
each timestep, and the uniform-[0,1) draws compared against `beta` (indexed
by timestep, visited node, and position in its neighbor list) and against
`mu` (indexed by timestep and visited node). -/
structure RandSource (N : ℕ) where
  seedPerm : Equiv.Perm (Fin N)
  visitOrder : ℕ → List ℕ
  infectDraw : ℕ → ℕ → ℕ → ℚ
  cureDraw : ℕ → ℕ → ℚ

/-- Python truthiness of `beta` / `mu` as tested by `if not beta:` —
`None` and `0.0` are falsy, every other float is truthy. -/
def truthy : Option ℚ → Bool
  | none => false
  | some b => b ≠ 0

/-- `if not beta: beta = 1 / avg_k` — the value of `beta` actually used. -/
def resolveBeta (g : NXGraph) (beta : Option ℚ) : ℚ :=
  if truthy beta then beta.getD 0 else 1 / g.avgDeg

/-- `if not mu: mu = 1 / H.number_of_nodes()` — the value of `mu` actually
used. -/
def resolveMu (N : ℕ) (mu : Option ℚ) : ℚ :=
  if truthy mu then mu.getD 0 else 1 / (N : ℚ)

/-- The permuted seed vector
`np.random.permutation(np.concatenate([np.repeat(1, k), np.repeat(0, N - k)]))`:
position `i` receives entry `π i` of the vector of `k` ones followed by
`N - k` zeros. -/
def seedsFun (N k : ℕ) (π : Equiv.Perm (Fin N)) : ℕ → ℤ :=
  fun i => if h : i < N then (if ((π ⟨i, h⟩ : ℕ) < k) then 1 else 0) else 0

/-- Seed construction; `np.repeat` raises `ValueError` on a negative repeat
count, which happens exactly when `numSeeds < 0` or `numSeeds > N`. -/
def mkSeeds (N : ℕ) (numSeeds : ℤ) (π : Equiv.Perm (Fin N)) : Except SimError (ℕ → ℤ) :=
  if numSeeds < 0 ∨ (N : ℤ) < numSeeds then .error .valueError
  else .ok (seedsFun N numSeeds.toNat π)

/-- `TS = np.zeros((N, L))` followed by `TS[:, 0] = seeds`. -/
def initialTS (N L : ℕ) (seeds : ℕ → ℤ) : Mat :=
  (Mat.zeros N L).setCol 0 (fun i => ((seeds i : ℤ) : ℚ))

/-- `nx.set_node_attributes(H, infected_attr, 'infected')` followed by
`nx.set_node_attributes(H, 0, 'next_infected')`. -/
def initGraph (g : NXGraph) (seeds : ℕ → ℤ) : NXGraph :=
  (g.setAttrMap "infected" seeds).setAttrAll "next_infected" 0

/-- The inner neighbor loop `for j in neigh: if np.random.random() < beta:
H.nodes[j]['next_infected'] = 1`, for visited node `i` at timestep `t`. -/
def markNeighbors {N : ℕ} (r : RandSource N) (beta : ℚ) (t i : ℕ) (g : NXGraph) : NXGraph :=
  (g.adj i).enum.foldl
    (fun h pj => if r.infectDraw t i pj.1 < beta then h.setAttrNode "next_infected" pj.2 1 else h)
    g

/-- The body of `for i in nodes:` — if node `i` is currently infected, mark
each neighbor with probability `beta`, then cure `i` with probability `mu`
(writing `infected = 0` immediately) or else stage `i` itself
(`next_infected = 1`). -/
def visitNode {N : ℕ} (r : RandSource N) (beta mu : ℚ) (t : ℕ) (g : NXGraph) (i : ℕ) : NXGraph :=
  if g.getAttrD "infected" i ≠ 0 then
    if r.cureDraw t i < mu then (markNeighbors r beta t i g).setAttrNode "infected" i 0
    else (markNeighbors r beta t i g).setAttrNode "next_infected" i 1
  else g

/-- Visit a list of nodes in order, threading the working graph. -/
def visitList {N : ℕ} (r : RandSource N) (beta mu : ℚ) (t : ℕ) (l : List ℕ) (g : NXGraph) :
    NXGraph :=
  l.foldl (visitNode r beta mu t) g

/-- `nodes = np.random.permutation(H.nodes)` followed by the visitation loop. -/
def visitAll {N : ℕ} (r : RandSource N) (beta mu : ℚ) (t : ℕ) (g : NXGraph) : NXGraph :=
  visitList r beta mu t (r.visitOrder t) g

/-- End-of-timestep commit: read all `next_infected` values, overwrite
`infected` with them, then reset `next_infected` to 0 for all nodes. -/
def commitStep (g : NXGraph) : NXGraph :=
  (g.setAttrMap "infected" (fun i => g.getAttrD "next_infected" i)).setAttrAll "next_infected" 0

/-- One full timestep of the SIS dynamics (visitation pass plus commit). -/
def sisStep {N : ℕ} (r : RandSource N) (beta mu : ℚ) (t : ℕ) (g : NXGraph) : NXGraph :=
  commitStep (visitAll r beta mu t g)

/-- The loop `for t in range(1, L)` with its early break, run with `k`
remaining iterations starting at timestep `t`: break when the previous
column sums to less than 1, otherwise run a timestep, record it as column
`t`, and continue. -/
def runSteps {N : ℕ} (r : RandSource N) (beta mu : ℚ) : ℕ → ℕ → Mat × NXGraph → Mat × NXGraph
  | 0, _, s => s
  | k + 1, t, s =>
    if s.1.colSum (t - 1) < 1 then s
    else
      let g := sisStep r beta mu t s.2
      let TS := s.1.setCol t (fun i => ((g.getAttrD "infected" i : ℤ) : ℚ))
      runSteps r beta mu k (t + 1) (TS, g)

/-- The post-loop padding `if TS.shape[1] < L: TS = np.hstack([TS, np.zeros((N,
L - TS.shape[1]))])`. -/
def padTS (N L : ℕ) (M : Mat) : Mat :=
  if M.cols < L then M.hstack (Mat.zeros N (L - M.cols)) else M

/-- The values `simulate` returns: the time series and the final working
graph (`self.results['ground_truth']`). -/
structure SimResult where
  TS : Mat
  groundTruth : NXGraph

/-- `SISModel.simulate(G, L, num_seeds, beta, mu)`, as a function of the
input graph, the parameters, and the random outcomes. -/
def simulate (g : NXGraph) (L : ℕ) (numSeeds : ℤ) (beta mu : Option ℚ) (r : RandSource g.N) :
    Except SimError SimResult :=
  let betaV := resolveBeta g beta
  let muV := resolveMu g.N mu
  match mkSeeds g.N numSeeds r.seedPerm with
  | .error e => .error e
  | .ok seeds =>
    if L = 0 then .error .indexError
    else
      let p := runSteps r betaV muV (L - 1) 1 (initialTS g.N L seeds, initGraph g seeds)
      .ok ⟨padTS g.N L p.1, p.2⟩

/-- `true` exactly when the call returned normally (did not raise). -/
def simIsOk {α : Type} (e : Except SimError α) : Bool :=
  match e with
  | .ok _ => true
  | .error _ => false

/-- The time series a successful call stores in `self.results['TS']` and
returns (the `0 × 0` matrix when the call raised instead). -/
def simulateTS (g : NXGraph) (L : ℕ) (numSeeds : ℤ) (beta mu : Option ℚ) (r : RandSource g.N) :
    Mat :=
  match simulate g L numSeeds beta mu r with
  | .ok res => res.TS
  | .error _ => Mat.zeros 0 0

/-- A heap of Python graph objects, for stating that the caller's graph is
not mutated: object ids map to graph values, `next` is the next unused id. -/
structure PyHeap where
  store : ℕ → NXGraph
  next : ℕ

/-- `simulate` at the object level: `H = G.copy()` allocates a fresh object
holding a copy of the caller's graph, every node-attribute mutation of the
run targets that fresh object, and the final working graph is stored back
into it. -/
def simulateObj (h : PyHeap) (gid : ℕ) (L : ℕ) (numSeeds : ℤ) (beta mu : Option ℚ)
    (r : RandSource (h.store gid).N) : PyHeap × Except SimError Mat :=
  let G := h.store gid
  let hid := h.next
  let h1 : PyHeap := ⟨fun j => if j = hid then G else h.store j, h.next + 1⟩
  match simulate G L numSeeds beta mu r with
  | .error e => (h1, .error e)
  | .ok res => (⟨fun j => if j = hid then res.groundTruth else h1.store j, h1.next⟩, .ok res.TS)

/-! ### Concrete instances used to exercise the theorems -/

/-- The path graph on two nodes (`0 – 1`), with no pre-set node attributes. -/
def gPath : NXGraph :=
  { N := 2
    adj := fun i => if i = 0 then [1] else if i = 1 then [0] else []
    attrs := fun _ _ => none }

/-- One concrete outcome of the random draws on a 2-node graph: identity
seed permutation, visitation order `[0, 1]` every timestep, every infection
draw `0`, every cure draw `3/4`. -/
def rPath : RandSource 2 :=
  { seedPerm := Equiv.refl _
    visitOrder := fun _ => [0, 1]
    infectDraw := fun _ _ _ => 0
    cureDraw := fun _ _ => 3/4 }

/-- A one-object heap whose object `0` is the path graph. -/
def heapPath : PyHeap :=
  { store := fun _ => gPath
    next := 1 }

/-- Both simulation attributes hold `0` or `1` at every node of the graph. -/
def binaryAttrs (g : NXGraph) : Prop :=
  ∀ i, i < g.N →
    (g.getAttrD "infected" i = 0 ∨ g.getAttrD "infected" i = 1) ∧
    (g.getAttrD "next_infected" i = 0 ∨ g.getAttrD "next_infected" i = 1)

/-! ### Basic facts about attribute operations -/

@[simp]
theorem NXGraph.N_setAttrNode (g : NXGraph) (name : String) (i : ℕ) (v : ℤ) :
    (g.setAttrNode name i v).N = g.N := rfl

@[simp]
theorem NXGraph.adj_setAttrNode (g : NXGraph) (name : String) (i : ℕ) (v : ℤ) :
    (g.setAttrNode name i v).adj = g.adj := rfl

@[simp]
theorem NXGraph.N_setAttrMap (g : NXGraph) (name : String) (m : ℕ → ℤ) :
    (g.setAttrMap name m).N = g.N := rfl

@[simp]
theorem NXGraph.adj_setAttrMap (g : NXGraph) (name : String) (m : ℕ → ℤ) :
    (g.setAttrMap name m).adj = g.adj := rfl

@[simp]
theorem NXGraph.N_setAttrAll (g : NXGraph) (name : String) (v : ℤ) :
    (g.setAttrAll name v).N = g.N := rfl

@[simp]
theorem NXGraph.adj_setAttrAll (g : NXGraph) (name : String) (v : ℤ) :
    (g.setAttrAll name v).adj = g.adj := rfl

theorem NXGraph.getAttrD_setAttrNode (g : NXGraph) (name n : String) (i j : ℕ) (v : ℤ) :
    (g.setAttrNode name i v).getAttrD n j =
      if n = name ∧ j = i then v else g.getAttrD n j := by
  by_cases h : n = name ∧ j = i <;>
    simp [NXGraph.setAttrNode, NXGraph.getAttrD, h]

theorem NXGraph.getAttrD_setAttrMap (g : NXGraph) (name n : String) (m : ℕ → ℤ) (j : ℕ) :
    (g.setAttrMap name m).getAttrD n j =
      if n = name ∧ j < g.N then m j else g.getAttrD n j := by
  by_cases h : n = name ∧ j < g.N <;>
    simp [NXGraph.setAttrMap, NXGraph.getAttrD, h]

theorem NXGraph.getAttrD_setAttrAll (g : NXGraph) (name n : String) (v : ℤ) (j : ℕ) :
    (g.setAttrAll name v).getAttrD n j =
      if n = name ∧ j < g.N then v else g.getAttrD n j := by
  by_cases h : n = name ∧ j < g.N <;>
    simp [NXGraph.setAttrAll, NXGraph.getAttrD, h]

/-! ### Basic facts about matrices -/

@[simp]
theorem Mat.rows_setCol (M : Mat) (t : ℕ) (v : ℕ → ℚ) : (M.setCol t v).rows = M.rows := rfl

@[simp]
theorem Mat.cols_setCol (M : Mat) (t : ℕ) (v : ℕ → ℚ) : (M.setCol t v).cols = M.cols := rfl

theorem Mat.entry_setCol (M : Mat) (t : ℕ) (v : ℕ → ℚ) (i c : ℕ) :
    (M.setCol t v).entry i c = if c = t then v i else M.entry i c := rfl

@[simp]
theorem Mat.rows_zeros (r c : ℕ) : (Mat.zeros r c).rows = r := rfl

@[simp]
theorem Mat.cols_zeros (r c : ℕ) : (Mat.zeros r c).cols = c := rfl

@[simp]
theorem Mat.entry_zeros (r c i t : ℕ) : (Mat.zeros r c).entry i t = 0 := rfl

theorem Mat.colSum_setCol_ne (M : Mat) (t : ℕ) (v : ℕ → ℚ) (c : ℕ) (h : c ≠ t) :
    (M.setCol t v).colSum c = M.colSum c := by
  unfold Mat.colSum
  refine Finset.sum_congr rfl fun i _ => ?_
  simp [Mat.entry_setCol, h]

theorem Mat.colSum_setCol_self (M : Mat) (t : ℕ) (v : ℕ → ℚ) :
    (M.setCol t v).colSum t = ∑ i ∈ Finset.range M.rows, v i := by
  unfold Mat.colSum
  refine Finset.sum_congr rfl fun i _ => ?_
  simp [Mat.entry_setCol]

@[simp]
theorem Mat.colSum_zeros (r c t : ℕ) : (Mat.zeros r c).colSum t = 0 := by
  simp [Mat.colSum]

/-! ### The dynamics never changes the node set or the edge set -/

theorem markNeighbors_N {N : ℕ} (r : RandSource N) (beta : ℚ) (t i : ℕ) (g : NXGraph) :
    (markNeighbors r beta t i g).N = g.N ∧ (markNeighbors r beta t i g).adj = g.adj := by
  unfold markNeighbors
  generalize (g.adj i).enum = l
  induction l generalizing g with
  | nil => exact ⟨rfl, rfl⟩
  | cons p l ih =>
    simp only [List.foldl_cons]
    rcases ih (if r.infectDraw t i p.1 < beta then g.setAttrNode "next_infected" p.2 1 else g)
      with ⟨h1, h2⟩
    constructor
    · rw [h1]; by_cases h : r.infectDraw t i p.1 < beta <;> simp [h]
    · rw [h2]; by_cases h : r.infectDraw t i p.1 < beta <;> simp [h]

theorem visitNode_N {N : ℕ} (r : RandSource N) (beta mu : ℚ) (t : ℕ) (g : NXGraph) (i : ℕ) :
    (visitNode r beta mu t g i).N = g.N ∧ (visitNode r beta mu t g i).adj = g.adj := by
  unfold visitNode
  rcases markNeighbors_N r beta t i g with ⟨h1, h2⟩
  by_cases hinf : g.getAttrD "infected" i ≠ 0 <;>
    by_cases hcure : r.cureDraw t i < mu <;>
    simp [hinf, hcure, h1, h2]

theorem visitList_N {N : ℕ} (r : RandSource N) (beta mu : ℚ) (t : ℕ) (l : List ℕ) (g : NXGraph) :
    (visitList r beta mu t l g).N = g.N ∧ (visitList r beta mu t l g).adj = g.adj := by
  induction l generalizing g with
  | nil => exact ⟨rfl, rfl⟩
  | cons x l ih =>
    simp only [visitList, List.foldl_cons]
    rcases ih (visitNode r beta mu t g x) with ⟨h1, h2⟩
    rcases visitNode_N r beta mu t g x with ⟨h3, h4⟩
    exact ⟨by rw [visitList] at h1; rw [h1, h3], by rw [visitList] at h2; rw [h2, h4]⟩

theorem commitStep_N (g : NXGraph) :
    (commitStep g).N = g.N ∧ (commitStep g).adj = g.adj := by
  unfold commitStep
  exact ⟨rfl, rfl⟩

theorem sisStep_N {N : ℕ} (r : RandSource N) (beta mu : ℚ) (t : ℕ) (g : NXGraph) :
    (sisStep r beta mu t g).N = g.N ∧ (sisStep r beta mu t g).adj = g.adj := by
  unfold sisStep
  rcases commitStep_N (visitAll r beta mu t g) with ⟨h1, h2⟩
  rcases visitList_N r beta mu t (r.visitOrder t) g with ⟨h3, h4⟩
  exact ⟨by rw [h1]; exact h3, by rw [h2]; exact h4⟩

/-! ### Shape of the matrix through the loop -/

theorem runSteps_rows_cols {N : ℕ} (r : RandSource N) (beta mu : ℚ) (k : ℕ) :
    ∀ (t : ℕ) (s : Mat × NXGraph),
      (runSteps r beta mu k t s).1.rows = s.1.rows ∧
        (runSteps r beta mu k t s).1.cols = s.1.cols := by
  induction k with
  | zero => intro t s; exact ⟨rfl, rfl⟩
  | succ k ih =>
    intro t s
    rw [runSteps]
    by_cases h : s.1.colSum (t - 1) < 1
    · simp [h]
    · simp only [h, if_false]
      rcases ih (t + 1)
        ((s.1.setCol t fun i =>
            (((sisStep r beta mu t s.2).getAttrD "infected" i : ℤ) : ℚ)),
          sisStep r beta mu t s.2) with ⟨h1, h2⟩
      exact ⟨by rw [h1]; rfl, by rw [h2]; rfl⟩

theorem runSteps_graph_N {N : ℕ} (r : RandSource N) (beta mu : ℚ) (k : ℕ) :
    ∀ (t : ℕ) (s : Mat × NXGraph), (runSteps r beta mu k t s).2.N = s.2.N := by
  induction k with
  | zero => intro t s; rfl
  | succ k ih =>
    intro t s
    rw [runSteps]
    by_cases h : s.1.colSum (t - 1) < 1
    · simp [h]
    · simp only [h, if_false]
      rw [ih]
      exact (sisStep_N r beta mu t s.2).1

/-- Columns strictly before the current timestep are never touched again by
the loop. -/
theorem runSteps_colSum_lt {N : ℕ} (r : RandSource N) (beta mu : ℚ) (k : ℕ) :
    ∀ (t : ℕ) (s : Mat × NXGraph) (c : ℕ), c < t →
      (runSteps r beta mu k t s).1.colSum c = s.1.colSum c := by
  induction k with
  | zero => intro t s c _; rfl
  | succ k ih =>
    intro t s c hc
    rw [runSteps]
    by_cases h : s.1.colSum (t - 1) < 1
    · simp [h]
    · simp only [h, if_false]
      rw [ih (t + 1) _ c (Nat.lt_succ_of_lt hc)]
      exact Mat.colSum_setCol_ne _ _ _ _ (Nat.ne_of_lt hc)

/-- Entries in columns strictly before the current timestep are never touched
again by the loop. -/
theorem runSteps_entry_lt {N : ℕ} (r : RandSource N) (beta mu : ℚ) (k : ℕ) :
    ∀ (t : ℕ) (s : Mat × NXGraph) (i c : ℕ), c < t →
      (runSteps r beta mu k t s).1.entry i c = s.1.entry i c := by
  induction k with
  | zero => intro t s i c _; rfl
  | succ k ih =>
    intro t s i c hc
    rw [runSteps]
    by_cases h : s.1.colSum (t - 1) < 1
    · simp [h]
    · simp only [h, if_false]
      rw [ih (t + 1) _ i c (Nat.lt_succ_of_lt hc)]
      simp [Mat.entry_setCol, Nat.ne_of_lt hc]

/-- Absorbing-extinction invariant of the loop: if, on entry at timestep `t`,
all columns from `t` on are still zero and zero column sums are absorbing,
then zero column sums are absorbing in the matrix the loop returns. -/
theorem runSteps_absorb {N : ℕ} (r : RandSource N) (beta mu : ℚ) (k : ℕ) :
    ∀ (t : ℕ) (s : Mat × NXGraph), 1 ≤ t →
      (∀ c, t ≤ c → s.1.colSum c = 0) →
      (∀ a b, a ≤ b → s.1.colSum a = 0 → s.1.colSum b = 0) →
      ∀ a b, a ≤ b → (runSteps r beta mu k t s).1.colSum a = 0 →
        (runSteps r beta mu k t s).1.colSum b = 0 := by
  induction k with
  | zero => intro t s _ _ habs a b hab ha; exact habs a b hab ha
  | succ k ih =>
    intro t s ht hfut habs a b hab ha
    rw [runSteps] at ha ⊢
    by_cases h : s.1.colSum (t - 1) < 1
    · simp only [h, if_true] at ha ⊢
      exact habs a b hab ha
    · simp only [h, if_false] at ha ⊢
      refine ih (t + 1)
        ((s.1.setCol t fun i =>
            (((sisStep r beta mu t s.2).getAttrD "infected" i : ℤ) : ℚ)),
          sisStep r beta mu t s.2)
        (Nat.le_succ_of_le ht) ?_ ?_ a b hab ha
      · intro c hc
        rw [Mat.colSum_setCol_ne _ _ _ _ (by omega)]
        exact hfut c (by omega)
      · intro a' b' hab' ha'
        by_cases hbt : b' = t
        · subst hbt
          by_cases hat : a' = b'
          · subst hat; exact ha'
          · have halt : a' < b' := lt_of_le_of_ne hab' hat
            rw [Mat.colSum_setCol_ne _ _ _ _ (Nat.ne_of_lt halt)] at ha'
            have h0 : s.1.colSum (b' - 1) = 0 := habs a' (b' - 1) (by omega) ha'
            exact absurd (by rw [h0]; norm_num) h
        · rw [Mat.colSum_setCol_ne _ _ _ _ hbt]
          by_cases hat : a' = t
          · subst hat
            exact hfut b' (by omega)
          · rw [Mat.colSum_setCol_ne _ _ _ _ hat] at ha'
            exact habs a' b' hab' ha'

/-! ### Every attribute value written by the dynamics is 0 or 1 -/

theorem binaryAttrs_setAttrNode (g : NXGraph) (name : String) (i : ℕ) (v : ℤ)
    (hv : v = 0 ∨ v = 1) (hg : binaryAttrs g) : binaryAttrs (g.setAttrNode name i v) := by
  intro j hj
  rw [NXGraph.N_setAttrNode] at hj
  rw [NXGraph.getAttrD_setAttrNode, NXGraph.getAttrD_setAttrNode]
  constructor
  · split_ifs with h
    · exact hv
    · exact (hg j hj).1
  · split_ifs with h
    · exact hv
    · exact (hg j hj).2

theorem binaryAttrs_markNeighbors {N : ℕ} (r : RandSource N) (beta : ℚ) (t i : ℕ)
    (g : NXGraph) (hg : binaryAttrs g) : binaryAttrs (markNeighbors r beta t i g) := by
  unfold markNeighbors
  generalize (g.adj i).enum = l
  induction l generalizing g with
  | nil => exact hg
  | cons p l ih =>
    simp only [List.foldl_cons]
    refine ih _ ?_
    by_cases h : r.infectDraw t i p.1 < beta
    · simp only [h, if_true]
      exact binaryAttrs_setAttrNode _ _ _ _ (Or.inr rfl) hg
    · simpa [h] using hg

theorem binaryAttrs_visitNode {N : ℕ} (r : RandSource N) (beta mu : ℚ) (t : ℕ)
    (g : NXGraph) (i : ℕ) (hg : binaryAttrs g) : binaryAttrs (visitNode r beta mu t g i) := by
  unfold visitNode
  split_ifs with h1 h2
  · exact binaryAttrs_setAttrNode _ _ _ _ (Or.inl rfl)
      (binaryAttrs_markNeighbors r beta t i g hg)
  · exact binaryAttrs_setAttrNode _ _ _ _ (Or.inr rfl)
      (binaryAttrs_markNeighbors r beta t i g hg)
  · exact hg

theorem binaryAttrs_visitList {N : ℕ} (r : RandSource N) (beta mu : ℚ) (t : ℕ)
    (l : List ℕ) (g : NXGraph) (hg : binaryAttrs g) :
    binaryAttrs (visitList r beta mu t l g) := by
  induction l generalizing g with
  | nil => exact hg
  | cons x l ih =>
    simp only [visitList, List.foldl_cons]
    exact ih (visitNode r beta mu t g x) (binaryAttrs_visitNode r beta mu t g x hg)

theorem getAttrD_commitStep_infected (g : NXGraph) (i : ℕ) (hi : i < g.N) :
    (commitStep g).getAttrD "infected" i = g.getAttrD "next_infected" i := by
  unfold commitStep
  rw [NXGraph.getAttrD_setAttrAll, NXGraph.getAttrD_setAttrMap]
  have hne : ("infected" : String) ≠ "next_infected" := by decide
  simp [hne, hi]

theorem getAttrD_commitStep_next (g : NXGraph) (i : ℕ) (hi : i < g.N) :
    (commitStep g).getAttrD "next_infected" i = 0 := by
  unfold commitStep
  rw [NXGraph.getAttrD_setAttrAll]
  simp [hi]

theorem binaryAttrs_commitStep (g : NXGraph) (hg : binaryAttrs g) :
    binaryAttrs (commitStep g) := by
  intro j hj
  rw [(commitStep_N g).1] at hj
  rw [getAttrD_commitStep_infected g j hj, getAttrD_commitStep_next g j hj]
  exact ⟨(hg j hj).2, Or.inl rfl⟩

theorem binaryAttrs_sisStep {N : ℕ} (r : RandSource N) (beta mu : ℚ) (t : ℕ)
    (g : NXGraph) (hg : binaryAttrs g) : binaryAttrs (sisStep r beta mu t g) := by
  unfold sisStep
  exact binaryAttrs_commitStep _ (binaryAttrs_visitList r beta mu t _ g hg)

/-- Matrix entries stay 0/1 through the loop, and the working graph stays
binary. -/
theorem runSteps_binary {N : ℕ} (r : RandSource N) (beta mu : ℚ) (k : ℕ) :
    ∀ (t : ℕ) (s : Mat × NXGraph), s.1.rows = s.2.N → binaryAttrs s.2 →
      (∀ i c, i < s.1.rows → s.1.entry i c = 0 ∨ s.1.entry i c = 1) →
      ∀ i c, i < (runSteps r beta mu k t s).1.rows →
        (runSteps r beta mu k t s).1.entry i c = 0 ∨
          (runSteps r beta mu k t s).1.entry i c = 1 := by
  induction k with
  | zero => intro t s _ _ hTS i c hi; exact hTS i c hi
  | succ k ih =>
    intro t s hrows hg hTS i c hi
    rw [runSteps] at hi ⊢
    by_cases h : s.1.colSum (t - 1) < 1
    · simp only [h, if_true] at hi ⊢
      exact hTS i c hi
    · simp only [h, if_false] at hi ⊢
      refine ih (t + 1) _ ?_ ?_ ?_ i c hi
      · rw [Mat.rows_setCol, hrows]
        exact ((sisStep_N r beta mu t s.2).1).symm
      · exact binaryAttrs_sisStep r beta mu t s.2 hg
      · intro i' c' hi'
        rw [Mat.rows_setCol] at hi'
        rw [Mat.entry_setCol]
        split_ifs with hc
        · rcases ((binaryAttrs_sisStep r beta mu t s.2 hg) i'
            (by rw [(sisStep_N r beta mu t s.2).1, ← hrows]; exact hi')).1 with h0 | h1
          · left; rw [h0]; norm_num
          · right; rw [h1]; norm_num
        · exact hTS i' c' hi'

/-- With 0/1 entries, a column summing to less than 1 sums to exactly 0. -/
theorem colSum_eq_zero_of_lt_one (M : Mat)
    (hbin : ∀ i c, i < M.rows → M.entry i c = 0 ∨ M.entry i c = 1)
    (c : ℕ) (h : M.colSum c < 1) : M.colSum c = 0 := by
  by_cases hz : ∀ i ∈ Finset.range M.rows, M.entry i c = 0
  · exact Finset.sum_eq_zero hz
  · exfalso
    push_neg at hz
    rcases hz with ⟨i, hi, hne⟩
    have h1 : M.entry i c = 1 := by
      rcases hbin i c (Finset.mem_range.mp hi) with h0 | h1
      · exact absurd h0 hne
      · exact h1
    have hle : (1 : ℚ) ≤ M.colSum c := by
      rw [← h1]
      unfold Mat.colSum
      have hnn : ∀ j ∈ Finset.range M.rows, (0 : ℚ) ≤ M.entry j c := by
        intro j hj
        rcases hbin j c (Finset.mem_range.mp hj) with h0 | h1'
        · exact le_of_eq h0.symm
        · rw [h1']; norm_num
      exact Finset.single_le_sum hnn hi
    exact absurd h (not_lt.mpr hle)

/-! ### The seed vector -/

theorem seedsFun_binary (N k : ℕ) (π : Equiv.Perm (Fin N)) (i : ℕ) :
    seedsFun N k π i = 0 ∨ seedsFun N k π i = 1 := by
  unfold seedsFun
  split_ifs <;> simp

/-- A permutation of `k` ones and `N - k` zeros sums to `k`. -/
theorem sum_seedsFun (N k : ℕ) (π : Equiv.Perm (Fin N)) (hk : k ≤ N) :
    ∑ i ∈ Finset.range N, ((seedsFun N k π i : ℤ) : ℚ) = k := by
  rw [← Fin.sum_univ_eq_sum_range]
  have hterm : ∀ i : Fin N, ((seedsFun N k π (i : ℕ) : ℤ) : ℚ) =
      if ((π i : ℕ) < k) then 1 else 0 := by
    intro i
    unfold seedsFun
    rw [dif_pos i.isLt]
    rw [Fin.eta]
    split_ifs <;> simp
  rw [Finset.sum_congr rfl fun i _ => hterm i]
  rw [Equiv.sum_comp π (fun j : Fin N => if ((j : ℕ) < k) then (1 : ℚ) else 0)]
  rw [Fin.sum_univ_eq_sum_range (fun j => if j < k then (1 : ℚ) else 0)]
  rw [← Finset.sum_filter]
  have hfil : (Finset.range N).filter (fun j => j < k) = Finset.range k := by
    ext j
    simp only [Finset.mem_filter, Finset.mem_range]
    omega
  rw [hfil, Finset.sum_const, Finset.card_range]
  simp

/-! ### Initialization -/

theorem initialTS_rows (N L : ℕ) (seeds : ℕ → ℤ) : (initialTS N L seeds).rows = N := rfl

theorem initialTS_cols (N L : ℕ) (seeds : ℕ → ℤ) : (initialTS N L seeds).cols = L := rfl

theorem initialTS_colSum_zero (N L : ℕ) (seeds : ℕ → ℤ) :
    (initialTS N L seeds).colSum 0 = ∑ i ∈ Finset.range N, ((seeds i : ℤ) : ℚ) := by
  unfold initialTS
  rw [Mat.colSum_setCol_self]
  rfl

theorem initialTS_colSum_pos (N L : ℕ) (seeds : ℕ → ℤ) (c : ℕ) (hc : c ≠ 0) :
    (initialTS N L seeds).colSum c = 0 := by
  unfold initialTS
  rw [Mat.colSum_setCol_ne _ _ _ _ hc]
  simp

theorem initialTS_entry_zero (N L : ℕ) (seeds : ℕ → ℤ) (i : ℕ) :
    (initialTS N L seeds).entry i 0 = ((seeds i : ℤ) : ℚ) := by
  unfold initialTS
  rw [Mat.entry_setCol]
  simp

theorem initGraph_N (g : NXGraph) (seeds : ℕ → ℤ) : (initGraph g seeds).N = g.N := rfl

theorem initGraph_infected (g : NXGraph) (seeds : ℕ → ℤ) (i : ℕ) (hi : i < g.N) :
    (initGraph g seeds).getAttrD "infected" i = seeds i := by
  unfold initGraph
  rw [NXGraph.getAttrD_setAttrAll, NXGraph.getAttrD_setAttrMap]
  have hne : ("infected" : String) ≠ "next_infected" := by decide
  simp [hne.symm, hi]

theorem initGraph_next (g : NXGraph) (seeds : ℕ → ℤ) (i : ℕ) (hi : i < g.N) :
    (initGraph g seeds).getAttrD "next_infected" i = 0 := by
  unfold initGraph
  rw [NXGraph.getAttrD_setAttrAll]
  simp [hi]

theorem binaryAttrs_initGraph (g : NXGraph) (seeds : ℕ → ℤ)
    (hs : ∀ i, seeds i = 0 ∨ seeds i = 1) : binaryAttrs (initGraph g seeds) := by
  intro i hi
  rw [initGraph_N] at hi
  rw [initGraph_infected g seeds i hi, initGraph_next g seeds i hi]
  exact ⟨hs i, Or.inl rfl⟩

/-! ### Unfolding `simulate` on valid parameters -/

theorem simulate_eq_ok (g : NXGraph) (L : ℕ) (numSeeds : ℤ) (bO mO : Option ℚ)
    (r : RandSource g.N) (hL : 1 ≤ L) (h0 : 0 ≤ numSeeds) (hN : numSeeds ≤ (g.N : ℤ)) :
    simulate g L numSeeds bO mO r =
      .ok ⟨padTS g.N L
            (runSteps r (resolveBeta g bO) (resolveMu g.N mO) (L - 1) 1
              (initialTS g.N L (seedsFun g.N numSeeds.toNat r.seedPerm),
                initGraph g (seedsFun g.N numSeeds.toNat r.seedPerm))).1,
          (runSteps r (resolveBeta g bO) (resolveMu g.N mO) (L - 1) 1
            (initialTS g.N L (seedsFun g.N numSeeds.toNat r.seedPerm),
              initGraph g (seedsFun g.N numSeeds.toNat r.seedPerm))).2⟩ := by
  unfold simulate mkSeeds
  rw [if_neg (by omega)]
  simp only
  rw [if_neg (by omega)]

theorem runSteps_cols_init (g : NXGraph) (L : ℕ) (seeds : ℕ → ℤ) (beta mu : ℚ)
    (r : RandSource g.N) (k t : ℕ) :
    (runSteps r beta mu k t (initialTS g.N L seeds, initGraph g seeds)).1.cols = L := by
  rw [(runSteps_rows_cols r beta mu k t _).2]
  rfl

theorem padTS_id (N L : ℕ) (M : Mat) (h : M.cols = L) : padTS N L M = M := by
  unfold padTS
  rw [h, if_neg (lt_irrefl L)]

/-- On valid parameters, the returned time series is exactly the loop's
matrix (the padding branch is skipped). -/
theorem simulateTS_eq (g : NXGraph) (L : ℕ) (numSeeds : ℤ) (bO mO : Option ℚ)
    (r : RandSource g.N) (hL : 1 ≤ L) (h0 : 0 ≤ numSeeds) (hN : numSeeds ≤ (g.N : ℤ)) :
    simulateTS g L numSeeds bO mO r =
      (runSteps r (resolveBeta g bO) (resolveMu g.N mO) (L - 1) 1
        (initialTS g.N L (seedsFun g.N numSeeds.toNat r.seedPerm),
          initGraph g (seedsFun g.N numSeeds.toNat r.seedPerm))).1 := by
  unfold simulateTS
  rw [simulate_eq_ok g L numSeeds bO mO r hL h0 hN]
  simp only
  exact padTS_id _ _ _ (runSteps_cols_init g L _ _ _ r _ _)

/-! ### The staging buffer is monotone during a pass -/

theorem markNeighbors_next_mono {N : ℕ} (r : RandSource N) (beta : ℚ) (t i : ℕ)
    (g : NXGraph) (j : ℕ) (h : g.getAttrD "next_infected" j ≠ 0) :
    (markNeighbors r beta t i g).getAttrD "next_infected" j ≠ 0 := by
  unfold markNeighbors
  generalize (g.adj i).enum = l
  induction l generalizing g with
  | nil => exact h
  | cons p l ih =>
    simp only [List.foldl_cons]
    refine ih _ ?_
    by_cases hd : r.infectDraw t i p.1 < beta
    · simp only [hd, if_true]
      rw [NXGraph.getAttrD_setAttrNode]
      split_ifs with hc
      · norm_num
      · exact h
    · simpa [hd] using h

theorem visitNode_next_mono {N : ℕ} (r : RandSource N) (beta mu : ℚ) (t : ℕ)
    (g : NXGraph) (i j : ℕ) (h : g.getAttrD "next_infected" j ≠ 0) :
    (visitNode r beta mu t g i).getAttrD "next_infected" j ≠ 0 := by
  unfold visitNode
  have hmark := markNeighbors_next_mono r beta t i g j h
  split_ifs with h1 h2
  · rw [NXGraph.getAttrD_setAttrNode]
    have hcond : ¬(("next_infected" : String) = "infected" ∧ j = i) := by
      rintro ⟨hstr, _⟩
      exact absurd hstr (by decide)
    rw [if_neg hcond]
    exact hmark
  · rw [NXGraph.getAttrD_setAttrNode]
    split_ifs with hc
    · norm_num
    · exact hmark
  · exact h

theorem visitList_next_mono {N : ℕ} (r : RandSource N) (beta mu : ℚ) (t : ℕ)
    (l : List ℕ) (g : NXGraph) (j : ℕ) (h : g.getAttrD "next_infected" j ≠ 0) :
    (visitList r beta mu t l g).getAttrD "next_infected" j ≠ 0 := by
  induction l generalizing g with
  | nil => exact h
  | cons x l ih =>
    simp only [visitList, List.foldl_cons]
    exact ih (visitNode r beta mu t g x) (visitNode_next_mono r beta mu t g x j h)

/-- The neighbor loop stages exactly the nodes that were already staged plus
those neighbors whose draw succeeded. -/
theorem markNeighbors_spec {N : ℕ} (r : RandSource N) (beta : ℚ) (t i : ℕ)
    (g : NXGraph) (j : ℕ) :
    (markNeighbors r beta t i g).getAttrD "next_infected" j ≠ 0 ↔
      (g.getAttrD "next_infected" j ≠ 0 ∨
        ∃ pj ∈ (g.adj i).enum, pj.2 = j ∧ r.infectDraw t i pj.1 < beta) := by
  unfold markNeighbors
  generalize (g.adj i).enum = l
  induction l generalizing g with
  | nil => simp
  | cons p l ih =>
    simp only [List.foldl_cons]
    by_cases hd : r.infectDraw t i p.1 < beta
    · simp only [hd, if_true]
      rw [ih (g.setAttrNode "next_infected" p.2 1)]
      rw [NXGraph.getAttrD_setAttrNode]
      by_cases hj : j = p.2
      · subst hj
        simp only [List.mem_cons]
        constructor
        · intro _
          exact Or.inr ⟨p, Or.inl rfl, rfl, hd⟩
        · intro _
          simp
      · rw [if_neg (by exact fun hc => hj hc.2)]
        simp only [List.mem_cons]
        constructor
        · rintro (h0 | ⟨q, hq, hqj, hqd⟩)
          · exact Or.inl h0
          · exact Or.inr ⟨q, Or.inr hq, hqj, hqd⟩
        · rintro (h0 | ⟨q, hq, hqj, hqd⟩)
          · exact Or.inl h0
          · rcases hq with hq | hq
            · subst hq
              exact absurd hqj.symm hj
            · exact Or.inr ⟨q, hq, hqj, hqd⟩
    · simp only [hd, if_false]
      rw [ih g]
      simp only [List.mem_cons]
      constructor
      · rintro (h0 | ⟨q, hq, hqj, hqd⟩)
        · exact Or.inl h0
        · exact Or.inr ⟨q, Or.inr hq, hqj, hqd⟩
      · rintro (h0 | ⟨q, hq, hqj, hqd⟩)
        · exact Or.inl h0
        · rcases hq with hq | hq
          · subst hq
            exact absurd hqd hd
          · exact Or.inr ⟨q, hq, hqj, hqd⟩

/-! ### The claims -/

/-- Claim C3: for every valid input (graph, `L ≥ 1`, `numSeeds` in `[0, N]`),
the returned time series has exactly `N` rows and exactly `L` columns, also
when the epidemic goes extinct early (the claim is proved for arbitrary
supplied `beta`/`mu`, which includes all values in `[0,1]`). -/
theorem claim_C3 (g : NXGraph) (L : ℕ) (numSeeds : ℤ) (bO mO : Option ℚ)
    (r : RandSource g.N) (hL : 1 ≤ L) (h0 : 0 ≤ numSeeds) (hN : numSeeds ≤ (g.N : ℤ)) :
    (simulateTS g L numSeeds bO mO r).rows = g.N ∧
      (simulateTS g L numSeeds bO mO r).cols = L := by
  rw [simulateTS_eq g L numSeeds bO mO r hL h0 hN]
  constructor
  · rw [(runSteps_rows_cols _ _ _ _ _ _).1]
    rfl
  · exact runSteps_cols_init g L _ _ _ r _ _

/-- Claim C4: column 0 of the returned time series sums to exactly
`numSeeds`; the seed assignment (a random permutation of `numSeeds` ones and
`N - numSeeds` zeros) is written identically to column 0 of the matrix and
to the working graph's `infected` attributes. -/
theorem claim_C4 (g : NXGraph) (L : ℕ) (numSeeds : ℤ) (bO mO : Option ℚ)
    (r : RandSource g.N) (hL : 1 ≤ L) (h0 : 0 ≤ numSeeds) (hN : numSeeds ≤ (g.N : ℤ)) :
    (simulateTS g L numSeeds bO mO r).colSum 0 = (numSeeds : ℚ) ∧
      ∀ i, i < g.N →
        (initGraph g (seedsFun g.N numSeeds.toNat r.seedPerm)).getAttrD "infected" i =
            seedsFun g.N numSeeds.toNat r.seedPerm i ∧
          (simulateTS g L numSeeds bO mO r).entry i 0 =
            ((seedsFun g.N numSeeds.toNat r.seedPerm i : ℤ) : ℚ) := by
  constructor
  · rw [simulateTS_eq g L numSeeds bO mO r hL h0 hN]
    rw [runSteps_colSum_lt _ _ _ _ _ _ 0 (by omega)]
    rw [initialTS_colSum_zero]
    rw [sum_seedsFun g.N numSeeds.toNat r.seedPerm (by omega)]
    have : ((numSeeds.toNat : ℤ) : ℚ) = (numSeeds : ℚ) := by
      rw [Int.toNat_of_nonneg h0]
    exact_mod_cast this
  · intro i hi
    refine ⟨initGraph_infected g _ i hi, ?_⟩
    rw [simulateTS_eq g L numSeeds bO mO r hL h0 hN]
    rw [runSteps_entry_lt _ _ _ _ _ _ i 0 (by omega)]
    exact initialTS_entry_zero g.N L _ i

/-- Claim C5: extinction is absorbing — in the returned time series, once a
column sums to less than 1 (with 0/1 entries, sums to 0), every later column
sums to 0: the loop breaks and the pre-allocated zero columns remain. -/
theorem claim_C5 (g : NXGraph) (L : ℕ) (numSeeds : ℤ) (bO mO : Option ℚ)
    (r : RandSource g.N) (hL : 1 ≤ L) (h0 : 0 ≤ numSeeds) (hN : numSeeds ≤ (g.N : ℤ))
    (a b : ℕ) (hab : a ≤ b)
    (ha : (simulateTS g L numSeeds bO mO r).colSum a < 1) :
    (simulateTS g L numSeeds bO mO r).colSum b = 0 := by
  rw [simulateTS_eq g L numSeeds bO mO r hL h0 hN] at ha ⊢
  have hbin : ∀ i c,
      i < (runSteps r (resolveBeta g bO) (resolveMu g.N mO) (L - 1) 1
            (initialTS g.N L (seedsFun g.N numSeeds.toNat r.seedPerm),
              initGraph g (seedsFun g.N numSeeds.toNat r.seedPerm))).1.rows →
      (runSteps r (resolveBeta g bO) (resolveMu g.N mO) (L - 1) 1
            (initialTS g.N L (seedsFun g.N numSeeds.toNat r.seedPerm),
              initGraph g (seedsFun g.N numSeeds.toNat r.seedPerm))).1.entry i c = 0 ∨
        (runSteps r (resolveBeta g bO) (resolveMu g.N mO) (L - 1) 1
            (initialTS g.N L (seedsFun g.N numSeeds.toNat r.seedPerm),
              initGraph g (seedsFun g.N numSeeds.toNat r.seedPerm))).1.entry i c = 1 := by
    intro i c hi
    refine runSteps_binary r _ _ (L - 1) 1 _ rfl
      (binaryAttrs_initGraph g _ (seedsFun_binary g.N numSeeds.toNat r.seedPerm)) ?_ i c hi
    intro i' c' _
    rw [initialTS]
    rw [Mat.entry_setCol]
    split_ifs with hc
    · rcases seedsFun_binary g.N numSeeds.toNat r.seedPerm i' with h' | h' <;>
        rw [h'] <;> norm_num
    · simp
  have ha0 := colSum_eq_zero_of_lt_one _ hbin a ha
  refine runSteps_absorb r _ _ (L - 1) 1 _ (le_refl 1) ?_ ?_ a b hab ha0
  · intro c hc
    exact initialTS_colSum_pos g.N L _ c (by omega)
  · intro a' b' hab' ha'
    by_cases hb' : b' = 0
    · subst hb'
      have : a' = 0 := by omega
      subst this
      exact ha'
    · exact initialTS_colSum_pos g.N L _ b' hb'

/-- Claim C6: every entry of the returned time series is exactly 0 or 1, for
every input accepted by the seed construction and every outcome of the
random draws. -/
theorem claim_C6 (g : NXGraph) (L : ℕ) (numSeeds : ℤ) (bO mO : Option ℚ)
    (r : RandSource g.N) (hL : 1 ≤ L) (h0 : 0 ≤ numSeeds) (hN : numSeeds ≤ (g.N : ℤ))
    (i c : ℕ) (hi : i < g.N) (hc : c < L) :
    (simulateTS g L numSeeds bO mO r).entry i c = 0 ∨
      (simulateTS g L numSeeds bO mO r).entry i c = 1 := by
  rw [simulateTS_eq g L numSeeds bO mO r hL h0 hN]
  refine runSteps_binary r _ _ (L - 1) 1 _ rfl
    (binaryAttrs_initGraph g _ (seedsFun_binary g.N numSeeds.toNat r.seedPerm)) ?_ i c ?_
  · intro i' c' _
    rw [initialTS]
    rw [Mat.entry_setCol]
    split_ifs with hcc
    · rcases seedsFun_binary g.N numSeeds.toNat r.seedPerm i' with h' | h' <;>
        rw [h'] <;> norm_num
    · simp
  · rw [(runSteps_rows_cols _ _ _ _ _ _).1]
    exact hi

/-- Claim C10: the post-loop padding branch is dead code — the loop's matrix
still has exactly `L` columns on exit, so the guard `TS.shape[1] < L` is
false, `padTS` returns its argument unchanged, and the returned time series
is the originally allocated buffer. -/
theorem claim_C10 (g : NXGraph) (L : ℕ) (numSeeds : ℤ) (bO mO : Option ℚ)
    (r : RandSource g.N) (p : Mat × NXGraph)
    (hL : 1 ≤ L) (h0 : 0 ≤ numSeeds) (hN : numSeeds ≤ (g.N : ℤ))
    (hp : p = runSteps r (resolveBeta g bO) (resolveMu g.N mO) (L - 1) 1
      (initialTS g.N L (seedsFun g.N numSeeds.toNat r.seedPerm),
        initGraph g (seedsFun g.N numSeeds.toNat r.seedPerm))) :
    p.1.cols = L ∧ padTS g.N L p.1 = p.1 ∧ simulateTS g L numSeeds bO mO r = p.1 := by
  subst hp
  refine ⟨runSteps_cols_init g L _ _ _ r _ _, ?_, simulateTS_eq g L numSeeds bO mO r hL h0 hN⟩
  exact padTS_id _ _ _ (runSteps_cols_init g L _ _ _ r _ _)

/-- Claim C7: `simulate` never mutates the caller's graph object — all
simulation state is attached to the private copy allocated at entry, so the
heap entry of the caller's graph (node set, edge set, and node attributes)
is identical before and after the call. -/
theorem claim_C7 (h : PyHeap) (gid L : ℕ) (numSeeds : ℤ) (bO mO : Option ℚ)
    (r : RandSource (h.store gid).N) (hgid : gid < h.next) :
    ((simulateObj h gid L numSeeds bO mO r).1).store gid = h.store gid := by
  unfold simulateObj
  have hne : gid ≠ h.next := Nat.ne_of_lt hgid
  rcases hsim : simulate (h.store gid) L numSeeds bO mO r with e | res <;>
    simp [hsim, hne]

/-- Claim C8: within one timestep's pass — (1) a visited infected node marks
neighbors (one draw each) and is then either cured immediately (`infected`
set to 0, visible to later visits) or staged (`next_infected` set to 1);
(2) a non-infected node is skipped; (3) the neighbor loop stages exactly the
already-staged nodes plus the neighbors whose draw succeeded; (4) a staged
flag is never cleared during a pass; (5) the pass is sequential (cures are
visible to later-visited nodes); (6) after the pass, `infected` is
overwritten by `next_infected` and `next_infected` is reset to 0; (7) one
timestep is the pass followed by that commit. -/
theorem claim_C8 {N : ℕ} (r : RandSource N) (beta mu : ℚ) (t : ℕ) :
    (∀ (g : NXGraph) (i : ℕ), g.getAttrD "infected" i ≠ 0 →
      visitNode r beta mu t g i =
        if r.cureDraw t i < mu then (markNeighbors r beta t i g).setAttrNode "infected" i 0
        else (markNeighbors r beta t i g).setAttrNode "next_infected" i 1) ∧
    (∀ (g : NXGraph) (i : ℕ), g.getAttrD "infected" i = 0 → visitNode r beta mu t g i = g) ∧
    (∀ (g : NXGraph) (i j : ℕ),
      (markNeighbors r beta t i g).getAttrD "next_infected" j ≠ 0 ↔
        (g.getAttrD "next_infected" j ≠ 0 ∨
          ∃ pj ∈ (g.adj i).enum, pj.2 = j ∧ r.infectDraw t i pj.1 < beta)) ∧
    (∀ (l : List ℕ) (g : NXGraph) (j : ℕ), g.getAttrD "next_infected" j ≠ 0 →
      (visitList r beta mu t l g).getAttrD "next_infected" j ≠ 0) ∧
    (∀ (l₁ l₂ : List ℕ) (g : NXGraph),
      visitList r beta mu t (l₁ ++ l₂) g = visitList r beta mu t l₂ (visitList r beta mu t l₁ g)) ∧
    (∀ (g : NXGraph) (i : ℕ), i < g.N →
      (commitStep g).getAttrD "infected" i = g.getAttrD "next_infected" i ∧
        (commitStep g).getAttrD "next_infected" i = 0) ∧
    (∀ g : NXGraph, sisStep r beta mu t g = commitStep (visitAll r beta mu t g)) := by
  refine ⟨?_, ?_, ?_, ?_, ?_, ?_, ?_⟩
  · intro g i h
    unfold visitNode
    rw [if_pos h]
  · intro g i h
    unfold visitNode
    rw [if_neg (by simp [h])]
  · intro g i j
    exact markNeighbors_spec r beta t i g j
  · intro l g j h
    exact visitList_next_mono r beta mu t l g j h
  · intro l₁ l₂ g
    simp [visitList, List.foldl_append]
  · intro g i hi
    exact ⟨getAttrD_commitStep_infected g i hi, getAttrD_commitStep_next g i hi⟩
  · intro g
    rfl

/-- Claim C9: because the defaulting tests Python truthiness (`if not beta:`)
rather than omission, an explicitly supplied `beta = 0.0` is replaced by
`1 / average_degree` and an explicitly supplied `mu = 0.0` by `1 / N`, while
any supplied nonzero value is kept; a call with a supplied zero rate behaves
exactly like a call with that rate omitted. -/
theorem claim_C9 :
    (∀ g : NXGraph, resolveBeta g (some 0) = 1 / g.avgDeg) ∧
    (∀ n : ℕ, resolveMu n (some 0) = 1 / (n : ℚ)) ∧
    (∀ (g : NXGraph) (b : ℚ), b ≠ 0 → resolveBeta g (some b) = b) ∧
    (∀ (n : ℕ) (m : ℚ), m ≠ 0 → resolveMu n (some m) = m) ∧
    (∀ (g : NXGraph) (L : ℕ) (numSeeds : ℤ) (mO : Option ℚ) (r : RandSource g.N),
      simulate g L numSeeds (some 0) mO r = simulate g L numSeeds none mO r) ∧
    (∀ (g : NXGraph) (L : ℕ) (numSeeds : ℤ) (bO : Option ℚ) (r : RandSource g.N),
      simulate g L numSeeds bO (some 0) r = simulate g L numSeeds bO none r) := by
  have hrb : ∀ g : NXGraph, resolveBeta g (some 0) = resolveBeta g none := by
    intro g
    simp [resolveBeta, truthy]
  have hrm : ∀ n : ℕ, resolveMu n (some 0) = resolveMu n none := by
    intro n
    simp [resolveMu, truthy]
  refine ⟨?_, ?_, ?_, ?_, ?_, ?_⟩
  · intro g
    simp [resolveBeta, truthy]
  · intro n
    simp [resolveMu, truthy]
  · intro g b hb
    simp [resolveBeta, truthy, hb]
  · intro n m hm
    simp [resolveMu, truthy, hm]
  · intro g L numSeeds mO r
    unfold simulate
    rw [hrb g]
  · intro g L numSeeds bO r
    unfold simulate
    rw [hrm g.N]

/-- Claim C2 is false on the code: on the 2-node path graph with
`numSeeds = 1`, `beta = 0.0`, `mu = 0.0` supplied and a concrete outcome of
the draws, the infected count is 1 in column 0 but 2 in column 1 — the
supplied zero rates are replaced by the defaults `beta = 1`, `mu = 1/2`, so
the infection spreads instead of persisting at exactly 1. -/
theorem claim_C2_counterexample :
    (simulateTS gPath 2 1 (some 0) (some 0) rPath).colSum 0 = 1 ∧
      (simulateTS gPath 2 1 (some 0) (some 0) rPath).colSum 1 = 2 := by
  have hc : ¬((3 : ℚ)/4 < 2⁻¹) := by norm_num
  have hb : ((0 : ℚ) < 1) := by norm_num
  constructor <;>
  · simp [hc, hb, simulateTS, simulate, resolveBeta, resolveMu, truthy, mkSeeds, seedsFun,
      initialTS, initGraph, runSteps, sisStep, visitAll, visitList, visitNode, markNeighbors,
      commitStep, Mat.colSum, Mat.setCol, Mat.zeros, Finset.sum_range_succ,
      NXGraph.setAttrMap, NXGraph.setAttrAll, NXGraph.setAttrNode, NXGraph.getAttrD,
      NXGraph.avgDeg, NXGraph.degreeList, gPath, rPath, List.enum, padTS, Mat.hstack,
      List.range_succ, List.map_append, List.sum_append, Function.comp]
    try norm_num

/-- Claim C2 amended: supplying `beta = 0.0` and `mu = 0.0` is
indistinguishable from omitting both parameters — the truthiness test
replaces both zeros by the defaults `1 / average_degree` and `1 / N` — so
the certain-persistence scenario does not hold as stated. -/
theorem claim_C2_amended (g : NXGraph) (L : ℕ) (numSeeds : ℤ) (r : RandSource g.N) :
    simulate g L numSeeds (some 0) (some 0) r = simulate g L numSeeds none none r := by
  unfold simulate
  rw [show resolveBeta g (some 0) = resolveBeta g none from by simp [resolveBeta, truthy]]
  rw [show resolveMu g.N (some 0) = resolveMu g.N none from by simp [resolveMu, truthy]]

/-- Claim C1 is false on the code: `simulate` performs no validation of the
rates — a call with `beta = 2` and `mu = 3/2`, both outside `[0, 1]`,
returns normally instead of failing with `InvalidParameter`. -/
theorem claim_C1_counterexample :
    simIsOk (simulate gPath 2 1 (some 2) (some (3/2)) rPath) = true := by
  rw [simulate_eq_ok gPath 2 1 (some 2) (some (3/2)) rPath (by norm_num) (by norm_num)
    (by norm_num [gPath])]
  rfl

/-- Claim C1 amended: `simulate` performs no entry validation — any
explicitly supplied `beta`/`mu`, including values outside `[0, 1]`, is
accepted and the call returns normally; `numSeeds` outside `[0, N]` aborts
with the numpy `ValueError` raised by `np.repeat`, and `L = 0` aborts with
the `IndexError` raised by the column-0 write, not with a dedicated
`InvalidParameter` check. -/
theorem claim_C1_amended :
    (∀ (g : NXGraph) (L : ℕ) (numSeeds : ℤ) (b m : ℚ) (r : RandSource g.N),
      1 ≤ L → 0 ≤ numSeeds → numSeeds ≤ (g.N : ℤ) →
      simIsOk (simulate g L numSeeds (some b) (some m) r) = true) ∧
    (∀ (g : NXGraph) (L : ℕ) (numSeeds : ℤ) (bO mO : Option ℚ) (r : RandSource g.N),
      (numSeeds < 0 ∨ (g.N : ℤ) < numSeeds) →
      simulate g L numSeeds bO mO r = .error .valueError) ∧
    (∀ (g : NXGraph) (numSeeds : ℤ) (bO mO : Option ℚ) (r : RandSource g.N),
      0 ≤ numSeeds → numSeeds ≤ (g.N : ℤ) →
      simulate g 0 numSeeds bO mO r = .error .indexError) := by
  refine ⟨?_, ?_, ?_⟩
  · intro g L numSeeds b m r hL h0 hN
    rw [simulate_eq_ok g L numSeeds (some b) (some m) r hL h0 hN]
    rfl
  · intro g L numSeeds bO mO r hbad
    unfold simulate mkSeeds
    rw [if_pos hbad]
  · intro g numSeeds bO mO r h0 hN
    unfold simulate mkSeeds
    rw [if_neg (by omega)]
    simp

/-! ### Concrete witnesses -/

/-- Witness for claim C1 (amended): at concrete inputs, out-of-range rates
are accepted, a negative seed count raises `ValueError`, and `L = 0` raises
`IndexError`. -/
theorem claim_C1_witness :
    simIsOk (simulate gPath 3 1 (some 5) (some (-3)) rPath) = true ∧
      simulate gPath 3 (-1) none none rPath = .error .valueError ∧
      simulate gPath 0 1 none none rPath = .error .indexError :=
  ⟨claim_C1_amended.1 gPath 3 1 5 (-3) rPath (by decide) (by decide) (by decide),
   claim_C1_amended.2.1 gPath 3 (-1) none none rPath (by decide),
   claim_C1_amended.2.2 gPath 1 none none rPath (by decide) (by decide)⟩

/-- Witness for claim C3 at a concrete input. -/
theorem claim_C3_witness :
    (simulateTS gPath 3 1 none none rPath).rows = 2 ∧
      (simulateTS gPath 3 1 none none rPath).cols = 3 :=
  claim_C3 gPath 3 1 none none rPath (by decide) (by decide) (by decide)

/-- Witness for claim C4 at a concrete input. -/
theorem claim_C4_witness :
    (simulateTS gPath 3 1 none none rPath).colSum 0 = ((1 : ℤ) : ℚ) ∧
      (initGraph gPath (seedsFun gPath.N (1 : ℤ).toNat rPath.seedPerm)).getAttrD "infected" 0 =
        seedsFun gPath.N (1 : ℤ).toNat rPath.seedPerm 0 ∧
      (simulateTS gPath 3 1 none none rPath).entry 0 0 =
        ((seedsFun gPath.N (1 : ℤ).toNat rPath.seedPerm 0 : ℤ) : ℚ) :=
  ⟨(claim_C4 gPath 3 1 none none rPath (by decide) (by decide) (by decide)).1,
   ((claim_C4 gPath 3 1 none none rPath (by decide) (by decide) (by decide)).2 0 (by decide)).1,
   ((claim_C4 gPath 3 1 none none rPath (by decide) (by decide) (by decide)).2 0 (by decide)).2⟩

/-- Witness for claim C5 at a concrete input: with zero seeds, column 0 sums
to less than 1 and column 1 sums to 0. -/
theorem claim_C5_witness :
    (simulateTS gPath 2 0 none none rPath).colSum 1 = 0 :=
  claim_C5 gPath 2 0 none none rPath (by decide) (by decide) (by decide) 0 1 (by decide)
    (by simp [simulateTS, simulate, resolveBeta, resolveMu, truthy, mkSeeds, seedsFun,
          initialTS, initGraph, runSteps, sisStep, visitAll, visitList, visitNode,
          markNeighbors, commitStep, Mat.colSum, Mat.setCol, Mat.zeros, Finset.sum_range_succ,
          NXGraph.setAttrMap, NXGraph.setAttrAll, NXGraph.setAttrNode, NXGraph.getAttrD,
          NXGraph.avgDeg, NXGraph.degreeList, gPath, rPath, List.enum, padTS, Mat.hstack,
          List.range_succ, List.map_append, List.sum_append, Function.comp])

/-- Witness for claim C6 at a concrete input. -/
theorem claim_C6_witness :
    (simulateTS gPath 3 1 none none rPath).entry 0 1 = 0 ∨
      (simulateTS gPath 3 1 none none rPath).entry 0 1 = 1 :=
  claim_C6 gPath 3 1 none none rPath (by decide) (by decide) (by decide) 0 1 (by decide)
    (by decide)

/-- Witness for claim C7 at a concrete heap. -/
theorem claim_C7_witness :
    ((simulateObj heapPath 0 2 1 none none rPath).1).store 0 = heapPath.store 0 :=
  claim_C7 heapPath 0 2 1 none none rPath (by decide)

/-- Witness for claim C8 at concrete inputs. -/
theorem claim_C8_witness :
    (visitNode rPath 1 (1/2) 1 (gPath.setAttrNode "infected" 0 1) 0 =
      if rPath.cureDraw 1 0 < 1/2 then
        (markNeighbors rPath 1 1 0 (gPath.setAttrNode "infected" 0 1)).setAttrNode "infected" 0 0
      else
        (markNeighbors rPath 1 1 0
          (gPath.setAttrNode "infected" 0 1)).setAttrNode "next_infected" 0 1) ∧
    (visitNode rPath 1 (1/2) 1 gPath 1 = gPath) ∧
    ((markNeighbors rPath 1 1 0 gPath).getAttrD "next_infected" 1 ≠ 0 ↔
      (gPath.getAttrD "next_infected" 1 ≠ 0 ∨
        ∃ pj ∈ (gPath.adj 0).enum, pj.2 = 1 ∧ rPath.infectDraw 1 0 pj.1 < 1)) ∧
    ((visitList rPath 1 (1/2) 1 [0, 1]
        (gPath.setAttrNode "next_infected" 0 1)).getAttrD "next_infected" 0 ≠ 0) ∧
    (visitList rPath 1 (1/2) 1 ([0] ++ [1]) gPath =
      visitList rPath 1 (1/2) 1 [1] (visitList rPath 1 (1/2) 1 [0] gPath)) ∧
    ((commitStep gPath).getAttrD "infected" 0 = gPath.getAttrD "next_infected" 0 ∧
      (commitStep gPath).getAttrD "next_infected" 0 = 0) ∧
    (sisStep rPath 1 (1/2) 1 gPath = commitStep (visitAll rPath 1 (1/2) 1 gPath)) :=
  ⟨(claim_C8 rPath 1 (1/2) 1).1 (gPath.setAttrNode "infected" 0 1) 0 (by decide),
   (claim_C8 rPath 1 (1/2) 1).2.1 gPath 1 (by decide),
   (claim_C8 rPath 1 (1/2) 1).2.2.1 gPath 0 1,
   (claim_C8 rPath 1 (1/2) 1).2.2.2.1 [0, 1] (gPath.setAttrNode "next_infected" 0 1) 0
     (by decide),
   (claim_C8 rPath 1 (1/2) 1).2.2.2.2.1 [0] [1] gPath,
   (claim_C8 rPath 1 (1/2) 1).2.2.2.2.2.1 gPath 0 (by decide),
   (claim_C8 rPath 1 (1/2) 1).2.2.2.2.2.2 gPath⟩

/-- Witness for claim C9 at concrete inputs: supplied nonzero rates are
kept. -/
theorem claim_C9_witness :
    resolveBeta gPath (some 2) = 2 ∧ resolveMu 5 (some (1/2)) = 1/2 :=
  ⟨claim_C9.2.2.1 gPath 2 (by norm_num), claim_C9.2.2.2.1 5 (1/2) (by norm_num)⟩

/-- Witness for claim C10 at a concrete input. -/
theorem claim_C10_witness :
    (runSteps rPath (resolveBeta gPath none) (resolveMu gPath.N none) (3 - 1) 1
        (initialTS gPath.N 3 (seedsFun gPath.N (1 : ℤ).toNat rPath.seedPerm),
          initGraph gPath (seedsFun gPath.N (1 : ℤ).toNat rPath.seedPerm))).1.cols = 3 ∧
      padTS gPath.N 3
          (runSteps rPath (resolveBeta gPath none) (resolveMu gPath.N none) (3 - 1) 1
            (initialTS gPath.N 3 (seedsFun gPath.N (1 : ℤ).toNat rPath.seedPerm),
              initGraph gPath (seedsFun gPath.N (1 : ℤ).toNat rPath.seedPerm))).1 =
        (runSteps rPath (resolveBeta gPath none) (resolveMu gPath.N none) (3 - 1) 1
          (initialTS gPath.N 3 (seedsFun gPath.N (1 : ℤ).toNat rPath.seedPerm),
            initGraph gPath (seedsFun gPath.N (1 : ℤ).toNat rPath.seedPerm))).1 ∧
      simulateTS gPath 3 1 none none rPath =
        (runSteps rPath (resolveBeta gPath none) (resolveMu gPath.N none) (3 - 1) 1
          (initialTS gPath.N 3 (seedsFun gPath.N (1 : ℤ).toNat rPath.seedPerm),
            initGraph gPath (seedsFun gPath.N (1 : ℤ).toNat rPath.seedPerm))).1 :=
  claim_C10 gPath 3 1 none none rPath _ (by decide) (by decide) (by decide) rfl
